import Mathlib

/-!
Verification of the `eslint-plugin-use-client` analysis engine.

This file gives a shallow embedding, in Lean 4, of the parts of the plugin
that classify syntax-tree nodes as client/server dependencies, trace imported
modules, detect the `use client` directive, and synthesize fixes, following
`src/pkg/src/utils.ts` and the rule modules
`enforce-use-client-advanced.ts`, `use-client-directive.ts` and
`no-server-only-in-client.ts`.  JavaScript strings become `String`, arrays
become `List`, `Map`/plain-object records become association lists,
`undefined`-able values become `Option`, and the module-scoped mutable caches
become explicit state records threaded through each function.  File-system
access (`existsSync`, `statSync`, `readFileSync`) is modelled by a `World`
value mapping paths to entries; a `readFileSync` call is logged so that
"this file was never read" is expressible.
-/

namespace UseClientPlugin

/-! ## Small string helpers mirroring JavaScript string primitives -/

/-- JavaScript `\w` word characters `[A-Za-z0-9_]`. -/
def isWordChar (c : Char) : Bool := c.isAlphanum || c == '_'

/-- JavaScript whitespace (the fragment of `\s` relevant to source files). -/
def isJsWs (c : Char) : Bool := c == ' ' || c == '\t' || c == '\n' || c == '\r'

/-- Substring occurrence test on character lists. -/
def hasSubList (pat : List Char) : List Char → Bool
  | [] => pat.isEmpty
  | c :: t => pat.isPrefixOf (c :: t) || hasSubList pat t

/-- JavaScript `String.prototype.includes`. -/
def strIncludes (s pat : String) : Bool := hasSubList pat.data s.data

/-- JavaScript `String.prototype.startsWith`. -/
def jsStartsWith (s pat : String) : Bool := pat.data.isPrefixOf s.data

/-- JavaScript `String.prototype.trim`. -/
def jsTrim (s : String) : String :=
  String.mk (((s.data.dropWhile isJsWs).reverse.dropWhile isJsWs).reverse)

/-- Whether some suffix of `cs` (including the empty one) satisfies `ok`;
used to model unanchored regular-expression search. -/
def anySuffix (ok : List Char → Bool) (cs : List Char) : Bool :=
  cs.tails.any ok

/-- Test `new RegExp("\\b" ++ w ++ "\\b").test s` for a pattern `w` consisting of
word characters only: `w` occurs in `s` as a maximal run of word characters. -/
def containsWord (s w : String) : Bool :=
  (s.split (fun c => !isWordChar c)).contains w

/-! ## Association lists standing in for JavaScript `Map`s / record objects -/

/-- Model of `map.get(k)` (`undefined` becomes `none`). -/
def alistGet {α : Type} (l : List (String × α)) (k : String) : Option α :=
  (l.find? (fun kv => kv.1 == k)).map Prod.snd

/-- Model of `map.has(k)`. -/
def alistHas {α : Type} (l : List (String × α)) (k : String) : Bool :=
  (alistGet l k).isSome

/-- Model of `map.set(k, v)`. -/
def alistSet {α : Type} (l : List (String × α)) (k : String) (v : α) :
    List (String × α) :=
  (k, v) :: l.filter (fun kv => !(kv.1 == k))

/-- Model of `map.delete(k)`. -/
def alistDel {α : Type} (l : List (String × α)) (k : String) :
    List (String × α) :=
  l.filter (fun kv => !(kv.1 == k))

/-! ## Classification tables (`src/pkg/src/utils.ts`) -/

/-- List of known client-only packages (`clientOnlyPackages`). -/
def clientOnlyPackages : List String :=
  ["react-dom", "@radix-ui/", "@headlessui/", "framer-motion", "react-spring",
   "react-modal", "react-select", "react-table", "react-hook-form",
   "react-query", "swr", "react-dnd", "react-draggable", "react-resizable",
   "react-beautiful-dnd"]

/-- Server-safe hooks that do not require the directive (`serverSafeHooks`). -/
def serverSafeHooks : List String :=
  ["useId", "useMemo", "useCallback", "use", "useContext", "useDebugValue",
   "useReducer", "useRef"]

/-- Client-only hooks that require the directive (`clientOnlyHooks`). -/
def clientOnlyHooks : List String :=
  ["useEffect", "useLayoutEffect", "useState", "useSyncExternalStore",
   "useTransition", "useImperativeHandle", "useDeferredValue",
   "useInsertionEffect"]

/-- DOM APIs that require the directive (`browserAPIs`). -/
def browserAPIs : List String :=
  ["window", "document", "navigator", "localStorage", "sessionStorage",
   "history", "location", "alert", "confirm", "prompt", "fetch",
   "XMLHttpRequest", "WebSocket", "IntersectionObserver", "ResizeObserver",
   "MutationObserver"]

/-- Shape `ModuleCategories`, the optional on-disk configuration shape. -/
structure ModuleCategories where
  clientModules : List String
  serverModules : List String
  sharedModules : List String
  clientOnlyHooks : List String
  serverSafeHooks : List String
deriving Repr, DecidableEq

/-- Result of `loadModuleCategories()` default when no config file is present. -/
def defaultModuleCategories : ModuleCategories :=
  ⟨[], [], [], [], []⟩

/-! ## Allowlist configuration (`Record<string, boolean | string[]>`) -/

/-- One allowlist record value: a boolean or an array of export names. -/
inductive AllowVal : Type where
  | boolVal (b : Bool)
  | listVal (xs : List String)
deriving Repr, DecidableEq

/-- The `allowlist` rule option; a key absent from the list is an absent
record property. -/
def Allowlist : Type := List (String × AllowVal)

/-! ## Expression fragment used by `isClientDetectionCondition` -/

/-- Shallow embedding of the expression shapes inspected by
`isClientDetectionCondition` in `utils.ts`. -/
inductive CondExpr : Type where
  | binaryExpr (op : String) (l r : CondExpr)
  | unaryExpr (op : String) (arg : CondExpr)
  | identExpr (name : String)
  | strLitExpr (value : String)
  | otherCond
deriving Repr, DecidableEq

/-- The inner `isTypeofWindow` helper: a `typeof` unary expression whose
argument is the identifier `window`. -/
def isTypeofWindowE : CondExpr → Bool
  | .unaryExpr op arg =>
      op == "typeof" &&
        (match arg with
         | .identExpr n => n == "window"
         | _ => false)
  | _ => false

/-- The inner `isUndefinedLiteral` helper: a literal whose value is the
string `undefined`. -/
def isUndefinedLiteralE : CondExpr → Bool
  | .strLitExpr v => v == "undefined"
  | _ => false

/-- Model of `isClientDetectionCondition` from `utils.ts`: a `!==`/`!=` comparison of
`typeof window` with `'undefined'`, in either operand order. -/
def isClientDetectionCondition : CondExpr → Bool
  | .binaryExpr op l r =>
      (op == "!==" || op == "!=") &&
        ((isTypeofWindowE l && isUndefinedLiteralE r) ||
          (isUndefinedLiteralE l && isTypeofWindowE r))
  | _ => false

/-- The name test inside `isHookCall`: starts with `use`, has length above 3
and its fourth character equals its own upper-casing. -/
def isHookName (name : String) : Bool :=
  jsStartsWith name "use" && name.length > 3 &&
    (match name.data.get? 3 with
     | some c => c.toUpper == c
     | none => false)

/-! ## `mightBeCompiledClientCode` (regex heuristics of `utils.ts`) -/

/-- Left word boundary: position preceded by nothing or by a non-word char. -/
def leftBoundaryOK : Option Char → Bool
  | none => true
  | some c => !isWordChar c

/-- Right word boundary after a prefix match. -/
def rightBoundaryOK : List Char → Bool
  | [] => true
  | c :: _ => !isWordChar c

/-- Search for a word occurrence of `w` (boundaries on both sides) and
return the suffix following it. `prev` is the character before the scan
position. -/
def findWordSuffix (w : List Char) (prev : Option Char) :
    List Char → Option (List Char)
  | [] => none
  | c :: t =>
      if leftBoundaryOK prev && w.isPrefixOf (c :: t) &&
          rightBoundaryOK ((c :: t).drop w.length) then
        some ((c :: t).drop w.length)
      else
        findWordSuffix w (some c) t

/-- Suffix after the first occurrence of character `c`, if any. -/
def afterChar (c : Char) (cs : List Char) : Option (List Char) :=
  match cs.dropWhile (fun d => !(d == c)) with
  | [] => none
  | _ :: t => some t

/-- Pattern `/\bwindow\b.*=.*this\b/` on one line. -/
def lineWindowEqThis (line : List Char) : Bool :=
  match findWordSuffix "window".data none line with
  | none => false
  | some r1 =>
      match afterChar '=' r1 with
      | none => false
      | some r2 =>
          anySuffix
            (fun cs =>
              "this".data.isPrefixOf cs && rightBoundaryOK (cs.drop 4)) r2

/-- Pattern `/\bdocument\b.*=.*this\.\w+/` on one line. -/
def lineDocumentEqThisDot (line : List Char) : Bool :=
  match findWordSuffix "document".data none line with
  | none => false
  | some r1 =>
      match afterChar '=' r1 with
      | none => false
      | some r2 =>
          anySuffix
            (fun cs =>
              "this.".data.isPrefixOf cs &&
                (match cs.drop 5 with
                 | d :: _ => isWordChar d
                 | [] => false)) r2

/-- After the token `typeof`: `\s+window\s*!==?\s*['"]undefined['"]`. -/
def typeofWindowTailMatch (cs : List Char) : Bool :=
  match cs with
  | [] => false
  | c :: t =>
      isJsWs c &&
        (let cs1 := t.dropWhile isJsWs
         "window".data.isPrefixOf cs1 &&
           (let cs2 := (cs1.drop 6).dropWhile isJsWs
            "!=".data.isPrefixOf cs2 &&
              (let cs3 :=
                 match cs2.drop 2 with
                 | '=' :: t3 => t3
                 | r => r
               let cs4 := cs3.dropWhile isJsWs
               match cs4 with
               | q :: t4 =>
                   (q == '\x27' || q == '\x22') &&
                     "undefined".data.isPrefixOf t4 &&
                       (match t4.drop 9 with
                        | q2 :: _ => q2 == '\x27' || q2 == '\x22'
                        | [] => false)
               | [] => false)))

/-- Pattern `/typeof\s+window\s*!==?\s*['"]undefined['"]/` over the whole content. -/
def matchTypeofWindowNe (cs : List Char) : Bool :=
  anySuffix
    (fun s => "typeof".data.isPrefixOf s && typeofWindowTailMatch (s.drop 6))
    cs

/-- Pattern `/['"]undefined['"]\s*!==?\s*typeof\s+window/` over the whole content. -/
def matchUndefinedNeTypeof (cs : List Char) : Bool :=
  anySuffix
    (fun s =>
      match s with
      | q :: t =>
          (q == '\x27' || q == '\x22') &&
            "undefined".data.isPrefixOf t &&
              (match t.drop 9 with
               | q2 :: t2 =>
                   (q2 == '\x27' || q2 == '\x22') &&
                     (let cs1 := t2.dropWhile isJsWs
                      "!=".data.isPrefixOf cs1 &&
                        (let cs2 :=
                           match cs1.drop 2 with
                           | '=' :: t3 => t3
                           | r => r
                         let cs3 := cs2.dropWhile isJsWs
                         "typeof".data.isPrefixOf cs3 &&
                           (match cs3.drop 6 with
                            | c :: t4 =>
                                isJsWs c &&
                                  "window".data.isPrefixOf
                                    (t4.dropWhile isJsWs)
                            | [] => false)))
               | [] => false)
      | [] => false)
    cs

/-- Split content into lines (the `.` of a JavaScript regex does not cross a
newline, so the first two patterns match within one line). -/
def toLines (s : String) : List (List Char) :=
  (s.split (fun c => c == '\n')).map String.data

/-- Model of `mightBeCompiledClientCode` from `utils.ts`. -/
def mightBeCompiledClientCode (content : String) : Bool :=
  (toLines content).any lineWindowEqThis ||
    (toLines content).any lineDocumentEqThisDot ||
    matchTypeofWindowNe content.data ||
    matchUndefinedNeTypeof content.data

/-! ## File-system world and the module-scoped caches -/

/-- Kind of a file-system entry (result of `statSync`). -/
inductive FsKind : Type where
  | file
  | dir
deriving Repr, DecidableEq

/-- One file-system entry: its kind, its readable content (`none` models a
`readFileSync` failure on an existing path) and its modification time. -/
structure FileEntry where
  kind : FsKind
  content : Option String
  mtime : Nat
deriving Repr, DecidableEq

/-- The file system visible to the analysis: path to entry; an absent path
does not exist (`existsSync` is false). -/
def World : Type := List (String × FileEntry)

/-- Model of `existsSync`. -/
def existsSync (w : World) (p : String) : Bool := alistHas w p

/-- Shape `FileAnalysisResult` from `utils.ts` (all fields optional). -/
structure FileAnalysisResult where
  hasUseClient : Option Bool := none
  hasClientCode : Option Bool := none
  error : Option Bool := none
deriving Repr, DecidableEq

/-- JavaScript truthiness of an optional boolean field. -/
def truthy (o : Option Bool) : Bool := o.getD false

/-- The mutable state of one `enforce-use-client` run together with the
module-scoped caches of `utils.ts`.  `reads` logs every `readFileSync`
call so that claims about files never being read are expressible. -/
structure AdvState where
  clientDependencies : List String := []
  hasDirectClientAPIs : Bool := false
  hasExports : Bool := false
  hasUseClientDirective : Bool := false
  currentTraceDepth : Nat := 0
  filesCheckedInThisRun : List String := []
  astCache : List (String × FileAnalysisResult) := []
  clientSideDependencyCache : List (String × Bool) := []
  fileTimestamps : List (String × Nat) := []
  reads : List String := []
deriving Repr, DecidableEq

/-- Model of `hasFileChanged` from `utils.ts`: missing file counts as changed; an
unknown or older recorded timestamp counts as changed and records the new
modification time. -/
def hasFileChanged (w : World) (s : AdvState) (p : String) :
    Bool × AdvState :=
  match alistGet w p with
  | none => (true, s)
  | some entry =>
      match alistGet s.fileTimestamps p with
      | none =>
          (true, { s with fileTimestamps := alistSet s.fileTimestamps p entry.mtime })
      | some known =>
          if entry.mtime > known then
            (true, { s with fileTimestamps := alistSet s.fileTimestamps p entry.mtime })
          else
            (false, s)

/-- Model of `getFileAST` from `utils.ts`: serve a cached result for an unchanged
file; otherwise read the file, detect the directive verbatim and run the
textual heuristics, caching every non-error outcome.  Read or existence
failures yield an `error` result that is never cached. -/
def getFileAST (w : World) (s : AdvState) (p : String) :
    FileAnalysisResult × AdvState :=
  let cachedStep :=
    if alistHas s.astCache p then
      let (changed, s1) := hasFileChanged w s p
      if !changed then
        match alistGet s1.astCache p with
        | some cached => some (cached, s1)
        | none => none
      else none
    else none
  match cachedStep with
  | some out => out
  | none =>
      if !existsSync w p then
        ({ error := some true }, s)
      else
        match alistGet w p with
        | none => ({ error := some true }, s)
        | some entry =>
            match entry.content with
            | none => ({ error := some true }, { s with reads := s.reads ++ [p] })
            | some fileContent =>
                let s := { s with reads := s.reads ++ [p] }
                let base : FileAnalysisResult :=
                  { hasUseClient :=
                      some (strIncludes fileContent "\x27use client\x27" ||
                        strIncludes fileContent "\x22use client\x22"),
                    hasClientCode := some false }
                if mightBeCompiledClientCode fileContent then
                  let r := { base with hasClientCode := some true }
                  (r, { s with astCache := alistSet s.astCache p r })
                else if browserAPIs.any (fun api => containsWord fileContent api) then
                  let r := { base with hasClientCode := some true }
                  (r, { s with astCache := alistSet s.astCache p r })
                else if clientOnlyHooks.any (fun hook => containsWord fileContent hook) then
                  let r := { base with hasClientCode := some true }
                  (r, { s with astCache := alistSet s.astCache p r })
                else
                  (base, { s with astCache := alistSet s.astCache p base })

/-- Model of `getClientDependency` from `utils.ts`: cached verdicts survive for
non-existent files, are dropped when the file changed, and are returned
otherwise. -/
def getClientDependency (w : World) (s : AdvState) (p : String) :
    Option Bool × AdvState :=
  if alistHas s.clientSideDependencyCache p then
    if !existsSync w p then
      (some ((alistGet s.clientSideDependencyCache p).getD false), s)
    else
      let (changed, s1) := hasFileChanged w s p
      if changed then
        (none,
          { s1 with clientSideDependencyCache :=
              alistDel s1.clientSideDependencyCache p })
      else
        (some ((alistGet s1.clientSideDependencyCache p).getD false), s1)
  else
    (none, s)

/-- Model of `setClientDependency` from `utils.ts`: record the verdict and refresh
the stored timestamp of an existing file. -/
def setClientDependency (w : World) (s : AdvState) (p : String)
    (isClientSide : Bool) : AdvState :=
  let s :=
    { s with clientSideDependencyCache :=
        alistSet s.clientSideDependencyCache p isClientSide }
  match alistGet w p with
  | some entry =>
      { s with fileTimestamps := alistSet s.fileTimestamps p entry.mtime }
  | none => s

/-! ## Rule options and helpers of `enforce-use-client-advanced.ts` -/

/-- Everything read-only during one run of the `enforce-use-client` rule:
the file system, the rule options, the loaded module categories and the
name of the file under analysis. -/
structure Env where
  w : World
  allowlist : Allowlist
  moduleCategories : ModuleCategories
  traceDepth : Nat
  traceDependencies : Bool
  fileName : String

/-- Model of `isModuleAllowlisted`: the allowlist maps the module to `true`, or the
module is listed among the configured server modules. -/
def isModuleAllowlisted (allowlist : Allowlist) (cats : ModuleCategories)
    (moduleName : String) : Bool :=
  (match alistGet allowlist moduleName with
   | some (.boolVal true) => true
   | _ => false) ||
    cats.serverModules.contains moduleName

/-- Model of `isExportAllowlisted`: `true` exempts every export, an array exempts the
listed names or everything when it contains the wildcard. -/
def isExportAllowlisted (allowlist : Allowlist) (moduleName exportName : String) :
    Bool :=
  match alistGet allowlist moduleName with
  | some (.boolVal true) => true
  | some (.listVal xs) => xs.contains exportName || xs.contains "*"
  | _ => false

/-- Model of `isKnownClientOnlyPackage`: configured client modules, or the hardcoded
list matched by exact name or prefix. -/
def isKnownClientOnlyPackage (cats : ModuleCategories) (packageName : String) :
    Bool :=
  cats.clientModules.contains packageName ||
    clientOnlyPackages.any
      (fun p => packageName == p || jsStartsWith packageName p)

/-! ## Node shapes visited by `checkNodeForClientAPIs` -/

/-- The syntax-node shapes the advanced rule dispatches on.  The
`symbolIsValue` field of an identifier records the outcome of the
host-supplied symbol check (`symbol && symbol.flags & SymbolFlags.Value`).
`none` in a position models a node of an unexpected type there. -/
inductive ANode : Type where
  | callExpr (calleeIdent : Option String)
  | identNode (name : String) (symbolIsValue : Bool)
  | memberExpr (objIdent : Option String) (propIdent : Option String)
  | jsxAttr (attrName : Option String)
  | ifStmt (test : CondExpr)
  | otherNode
deriving Repr, DecidableEq

/-- Model of `isHookCall` from `utils.ts`: a call whose callee is an identifier whose
name follows the hook-naming convention. -/
def isHookCall : ANode → Bool
  | .callExpr (some n) => isHookName n
  | _ => false

/-- Append an indirect (imported-module-level) dependency finding. -/
def pushDep (s : AdvState) (dep : String) : AdvState :=
  { s with clientDependencies := s.clientDependencies ++ [dep] }

/-- Append a direct in-file finding and raise `hasDirectClientAPIs`. -/
def pushDirect (s : AdvState) (dep : String) : AdvState :=
  { s with clientDependencies := s.clientDependencies ++ [dep],
           hasDirectClientAPIs := true }

/-- Model of `checkNodeForClientAPIs` of `enforce-use-client-advanced.ts`: hooks by
name against the extended tables, browser globals (symbol-confirmed
identifiers and member-expression objects), JSX event-handler attributes,
and the `typeof window` client-detection condition. -/
def checkNodeForClientAPIs (clientOnlyHooksExtended serverSafeHooksExtended : List String)
    (node : ANode) (s : AdvState) : Bool × AdvState :=
  if isHookCall node then
    let hookName :=
      match node with
      | .callExpr (some n) => n
      | _ => ""
    if clientOnlyHooksExtended.contains hookName then
      (true, pushDirect s ("React hook: " ++ hookName))
    else if serverSafeHooksExtended.contains hookName then
      (false, s)
    else
      (true, pushDirect s ("Unknown hook call: " ++ hookName))
  else
    match node with
    | .identNode name symbolIsValue =>
        if browserAPIs.contains name && symbolIsValue then
          (true, pushDirect s ("Browser API: " ++ name))
        else
          (false, s)
    | .memberExpr (some objectName) propIdent =>
        if browserAPIs.contains objectName then
          let propName := propIdent.getD "?"
          (true, pushDirect s ("Browser API: " ++ objectName ++ "." ++ propName))
        else
          (false, s)
    | .jsxAttr (some attrName) =>
        if jsStartsWith attrName "on" && attrName.length > 2 then
          match attrName.data.get? 2 with
          | some secondChar =>
              if secondChar.toUpper == secondChar then
                (true, pushDirect s ("JSX event handler: " ++ attrName))
              else
                (false, s)
          | none => (false, s)
        else
          (false, s)
    | .ifStmt test =>
        if isClientDetectionCondition test then
          (true, pushDirect s "Client detection condition (typeof window check)")
        else
          (false, s)
    | _ => (false, s)

/-! ## Module path resolution (`resolveModulePath`) -/

/-- Split a path on separators. -/
def splitSegs (p : String) : List String := p.split (fun c => c == '/')

/-- Collapse `.`/`..`/empty segments (accumulator holds reversed output). -/
def normalizeSegs (acc : List String) : List String → List String
  | [] => acc.reverse
  | seg :: rest =>
      if seg == "" || seg == "." then normalizeSegs acc rest
      else if seg == ".." then
        match acc with
        | [] => normalizeSegs acc rest
        | _ :: t => normalizeSegs t rest
      else normalizeSegs (seg :: acc) rest

/-- Normalize a path, preserving a leading separator. -/
def normPath (p : String) : String :=
  (if jsStartsWith p "/" then "/" else "") ++
    String.intercalate "/" (normalizeSegs [] (splitSegs p))

/-- Model of `node:path` `resolve(base, p)` for the shapes the rule produces. -/
def pathResolve (base p : String) : String :=
  if jsStartsWith p "/" then normPath p else normPath (base ++ "/" ++ p)

/-- Model of `node:path` `dirname`. -/
def dirname (p : String) : String :=
  match (splitSegs p).dropLast with
  | [] => "."
  | [""] => "/"
  | segs => String.intercalate "/" segs

/-- Model of `node:path` `join`. -/
def pathJoin (a b : String) : String := normPath (a ++ "/" ++ b)

/-- Whether the path names an existing regular file. -/
def isFileAt (w : World) (p : String) : Bool :=
  match alistGet w p with
  | some e => e.kind == FsKind.file
  | none => false

/-- Whether the path names an existing directory. -/
def isDirAt (w : World) (p : String) : Bool :=
  match alistGet w p with
  | some e => e.kind == FsKind.dir
  | none => false

/-- Model of `resolveModulePath`: relative/absolute specifiers resolved against the
directory of the current file, trying the exact path, the known extensions
and then directory index files. -/
def resolveModulePath (w : World) (fileName moduleSpecifier : String) :
    Option String :=
  if jsStartsWith moduleSpecifier "." || jsStartsWith moduleSpecifier "/" then
    let basedir := dirname fileName
    let extensions := [".ts", ".tsx", ".js", ".jsx"]
    let exactPath := pathResolve basedir moduleSpecifier
    if existsSync w exactPath && isFileAt w exactPath then
      some exactPath
    else
      match extensions.find?
          (fun ext => existsSync w (pathResolve basedir (moduleSpecifier ++ ext))) with
      | some ext => some (pathResolve basedir (moduleSpecifier ++ ext))
      | none =>
          let dirPath := pathResolve basedir moduleSpecifier
          if existsSync w dirPath && isDirAt w dirPath then
            match extensions.find?
                (fun ext => existsSync w (pathJoin dirPath ("index" ++ ext))) with
            | some ext => some (pathJoin dirPath ("index" ++ ext))
            | none => none
          else
            none
  else
    none

/-- Model of `isNodeModule`. -/
def isNodeModule (modulePath : String) : Bool :=
  strIncludes modulePath "node_modules"

/-! ## Transitive analysis (`analyzeModuleForClientDependencies`) -/

/-- Model of `analyzeModuleForClientDependencies`: a path already in
`filesCheckedInThisRun` is answered from the dependency cache (defaulting
to `false`) without being re-entered; otherwise the path is marked visited,
the cache is consulted, and on a miss the file is read and scanned, caching
every non-error verdict.  An error verdict is returned as `false` and is
not cached. -/
def analyzeModuleForClientDependencies (env : Env) (filePath : String)
    (s : AdvState) : Bool × AdvState :=
  if s.filesCheckedInThisRun.contains filePath then
    let (cachedResult, s1) := getClientDependency env.w s filePath
    (cachedResult.getD false, s1)
  else
    let s := { s with filesCheckedInThisRun := filePath :: s.filesCheckedInThisRun }
    let (cachedResult, s) := getClientDependency env.w s filePath
    match cachedResult with
    | some b => (b, s)
    | none =>
        let s := { s with currentTraceDepth := s.currentTraceDepth + 1 }
        let (ast, s) := getFileAST env.w s filePath
        if truthy ast.hasUseClient then
          let s := setClientDependency env.w s filePath true
          (true, { s with currentTraceDepth := s.currentTraceDepth - 1 })
        else if truthy ast.hasClientCode then
          let s := setClientDependency env.w s filePath true
          (true, { s with currentTraceDepth := s.currentTraceDepth - 1 })
        else if truthy ast.error then
          (false, { s with currentTraceDepth := s.currentTraceDepth - 1 })
        else
          let s := setClientDependency env.w s filePath false
          (false, { s with currentTraceDepth := s.currentTraceDepth - 1 })

/-! ## Import declarations (`checkImportForClientDependencies`) -/

/-- Import specifier shapes.  For a named specifier, `imported` is the name
when the imported reference is an identifier (`none` otherwise, which the
rule turns into the empty string), and `typeOnly` its own `importKind`. -/
inductive ImportSpecNode : Type where
  | importSpecifier (imported : Option String) (typeOnly : Bool)
  | importDefaultSpecifier
  | importNamespaceSpecifier
deriving Repr, DecidableEq

/-- The declaration-level `importKind`. -/
inductive ImportKindJs : Type where
  | value
  | typeOnly
deriving Repr, DecidableEq

/-- An `ImportDeclaration` node. -/
structure ImportDeclNode where
  source : String
  importKind : ImportKindJs
  specifiers : List ImportSpecNode
deriving Repr, DecidableEq

/-- The per-specifier loop of `checkImportForClientDependencies`: skip
type-only and allowlisted specifiers, and when tracing is enabled and depth
remains, resolve the module, consult the caches and fall back to
`analyzeModuleForClientDependencies`. -/
def checkImportSpecLoop (env : Env) (moduleSpecifier : String) :
    List ImportSpecNode → Bool → AdvState → Bool × AdvState
  | [], acc, s => (acc, s)
  | spec :: rest, acc, s =>
      match spec with
      | .importSpecifier imported tOnly =>
          if tOnly then
            checkImportSpecLoop env moduleSpecifier rest acc s
          else
            let importedName := imported.getD ""
            if isExportAllowlisted env.allowlist moduleSpecifier importedName then
              checkImportSpecLoop env moduleSpecifier rest acc s
            else if env.traceDependencies && env.traceDepth > s.currentTraceDepth then
              match resolveModulePath env.w env.fileName moduleSpecifier with
              | none => checkImportSpecLoop env moduleSpecifier rest acc s
              | some resolvedPath =>
                  if isNodeModule resolvedPath then
                    checkImportSpecLoop env moduleSpecifier rest acc s
                  else if s.filesCheckedInThisRun.contains resolvedPath then
                    checkImportSpecLoop env moduleSpecifier rest acc s
                  else if alistHas s.clientSideDependencyCache resolvedPath then
                    let (changed, s1) := hasFileChanged env.w s resolvedPath
                    if !changed then
                      if (alistGet s1.clientSideDependencyCache resolvedPath).getD false then
                        checkImportSpecLoop env moduleSpecifier rest true
                          (pushDep s1
                            ("Import from client module: " ++ moduleSpecifier ++
                              "." ++ importedName))
                      else
                        checkImportSpecLoop env moduleSpecifier rest acc s1
                    else
                      let (dep, s2) :=
                        analyzeModuleForClientDependencies env resolvedPath s1
                      if dep then
                        checkImportSpecLoop env moduleSpecifier rest true
                          (pushDep s2
                            ("Import from client module: " ++ moduleSpecifier ++
                              "." ++ importedName))
                      else
                        checkImportSpecLoop env moduleSpecifier rest acc s2
                  else
                    let (dep, s2) :=
                      analyzeModuleForClientDependencies env resolvedPath s
                    if dep then
                      checkImportSpecLoop env moduleSpecifier rest true
                        (pushDep s2
                          ("Import from client module: " ++ moduleSpecifier ++
                            "." ++ importedName))
                    else
                      checkImportSpecLoop env moduleSpecifier rest acc s2
            else
              checkImportSpecLoop env moduleSpecifier rest acc s
      | _ => checkImportSpecLoop env moduleSpecifier rest acc s

/-- Model of `checkImportForClientDependencies`: allowlisted modules are skipped
outright, known client-only packages are flagged as direct findings,
type-only declarations are skipped, and the remaining named specifiers go
through the tracing loop. -/
def checkImportForClientDependencies (env : Env) (node : ImportDeclNode)
    (s : AdvState) : Bool × AdvState :=
  if isModuleAllowlisted env.allowlist env.moduleCategories node.source then
    (false, s)
  else if isKnownClientOnlyPackage env.moduleCategories node.source then
    (true, pushDirect s ("Import from client-only package: " ++ node.source))
  else if node.importKind == ImportKindJs.typeOnly then
    (false, s)
  else
    checkImportSpecLoop env node.source node.specifiers false s

/-! ## Dynamic imports (`checkDynamicImport`) -/

/-- An `ImportExpression` node; `source` is `some` only when the source is
a string literal. -/
structure ImportExprNode where
  source : Option String
deriving Repr, DecidableEq

/-- Model of `checkDynamicImport`: same flow as a static import but with a single
module-level verdict, and its traced findings count as direct. -/
def checkDynamicImport (env : Env) (node : ImportExprNode) (s : AdvState) :
    Bool × AdvState :=
  match node.source with
  | none => (false, s)
  | some moduleSpecifier =>
      if isModuleAllowlisted env.allowlist env.moduleCategories moduleSpecifier then
        (false, s)
      else if isKnownClientOnlyPackage env.moduleCategories moduleSpecifier then
        (true,
          pushDirect s ("Dynamic import from client-only package: " ++ moduleSpecifier))
      else if env.traceDependencies && env.traceDepth > s.currentTraceDepth then
        match resolveModulePath env.w env.fileName moduleSpecifier with
        | none => (false, s)
        | some resolvedPath =>
            if isNodeModule resolvedPath then (false, s)
            else if s.filesCheckedInThisRun.contains resolvedPath then (false, s)
            else if alistHas s.clientSideDependencyCache resolvedPath then
              let (changed, s1) := hasFileChanged env.w s resolvedPath
              if !changed then
                if (alistGet s1.clientSideDependencyCache resolvedPath).getD false then
                  (true,
                    pushDirect s1
                      ("Dynamic import from client module: " ++ moduleSpecifier))
                else
                  (false, s1)
              else
                let (dep, s2) :=
                  analyzeModuleForClientDependencies env resolvedPath s1
                if dep then
                  (true,
                    pushDirect s2
                      ("Dynamic import from client module: " ++ moduleSpecifier))
                else
                  (false, s2)
            else
              let (dep, s2) :=
                analyzeModuleForClientDependencies env resolvedPath s
              if dep then
                (true,
                  pushDirect s2
                    ("Dynamic import from client module: " ++ moduleSpecifier))
              else
                (false, s2)
      else
        (false, s)

/-! ## End-of-file decision (`Program:exit`) and fixes -/

/-- Model of `isLikelySharedComponent`: exports present, no direct client APIs, and
an empty accumulated dependency list. -/
def isLikelySharedComponent (s : AdvState) : Bool :=
  s.hasExports && !s.hasDirectClientAPIs && s.clientDependencies.isEmpty

/-- Diagnostics of the `enforce-use-client` rule; the missing-directive
diagnostic carries its fix text. -/
inductive AdvReport : Type where
  | missingUseClient (fix : String)
  | detectedClientDep (dependency : String)
  | sharedComponent
deriving Repr, DecidableEq

/-- The text inserted by the advanced rule's fixer. -/
def advancedFixText : String := "\x27use client\x27;\n\n"

/-- Model of `Program:exit` of the advanced rule: cache this file's verdict, honour
the `check-use-client-disable` comment, then either report the missing
directive with one diagnostic per accumulated dependency, or the
shared-component hint. -/
def programExit (env : Env) (comments : List String) (s : AdvState) :
    List AdvReport × AdvState :=
  let needsUseClient := !s.clientDependencies.isEmpty
  let s :=
    { s with clientSideDependencyCache :=
        alistSet s.clientSideDependencyCache env.fileName needsUseClient }
  let hasDisableDirective :=
    comments.any (fun c => strIncludes (jsTrim c) "check-use-client-disable")
  let isShared := isLikelySharedComponent s
  if needsUseClient && !s.hasUseClientDirective && !hasDisableDirective then
    (AdvReport.missingUseClient advancedFixText ::
      s.clientDependencies.map AdvReport.detectedClientDep, s)
  else if isShared then
    ([AdvReport.sharedComponent], s)
  else
    ([], s)

/-- Apply an insert-text fix at a byte offset of the original source. -/
def insertAt (src : String) (offset : Nat) (text : String) : String :=
  String.mk (src.data.take offset ++ text.data ++ src.data.drop offset)

/-- Literal string expressions, keeping the raw source text (with its quote
style) alongside the parsed value. -/
inductive ExprLit : Type where
  | strLit (raw : String) (value : String)
  | otherExpr
deriving Repr, DecidableEq

/-- An `ExpressionStatement` with its optional `directive` field. -/
structure ExpressionStatementNode where
  directive : Option String := none
  expression : ExprLit
deriving Repr, DecidableEq

/-- The advanced rule's `ExpressionStatement` visitor condition: the parsed
`directive` field or a string literal whose value is `use client`. -/
def advancedDirectiveCheck (node : ExpressionStatementNode) : Bool :=
  node.directive == some "use client" ||
    (match node.expression with
     | .strLit _ v => v == "use client"
     | _ => false)

/-! ## The `use-client-directive` rule (`use-client-directive.ts`) -/

/-- The rule's `DOM_APIS` set. -/
def DOM_APIS : List String :=
  ["document", "window", "navigator", "localStorage", "sessionStorage",
   "history", "location"]

/-- One entry of a rule's `imports` map: source module, imported name
(`default` / `*` where applicable) and whether it came from a
namespace import. -/
structure ImportInfo where
  source : String
  importedName : String
  isNamespaceImport : Bool
deriving Repr, DecidableEq

/-- Model of `isAllowlistedImport` of `use-client-directive.ts`: a module absent
from the allowlist is allowed by default; `true` allows everything; an
array allows the listed exports or everything via the wildcard. -/
def isAllowlistedImport (allowedModules : Allowlist) (source importedName : String) :
    Bool :=
  match alistGet allowedModules source with
  | none => true
  | some (.boolVal true) => true
  | some (.listVal xs) => xs.contains importedName || xs.contains "*"
  | some (.boolVal false) => false

/-- Source location of a node (start line and column). -/
structure Loc where
  line : Nat
  col : Nat
deriving Repr, DecidableEq

/-- Expression shapes visited by the `use-client-directive` rule. -/
inductive UExpr : Type where
  | identE (loc : Loc) (name : String)
  | memberE (loc : Loc) (obj : UExpr) (propIdent : Option String)
  | otherE (loc : Loc)
deriving Repr, DecidableEq

/-- The `loc` of an expression node. -/
def uexprLoc : UExpr → Loc
  | .identE loc _ => loc
  | .memberE loc _ _ => loc
  | .otherE loc => loc

/-- The dedup key built by every report helper:
`` `${line}:${column}:${api}` ``. -/
def nodeKey (line col : Nat) (api : String) : String :=
  toString line ++ ":" ++ toString col ++ ":" ++ api

/-- The text inserted by the `use-client-directive` fixer. -/
def ucdFixText : String := "\x27use client\x27;\n"

/-- A diagnostic of the `use-client-directive` rule with its fix text. -/
structure UCDReport where
  line : Nat
  col : Nat
  api : String
  fix : String
deriving Repr, DecidableEq

/-- The dedup key of an emitted `use-client-directive` diagnostic. -/
def ucdReportKey (r : UCDReport) : String := nodeKey r.line r.col r.api

/-- The location `reportNode` keys on: a member expression is keyed by its
object's location, every other node by its own. -/
def reportLoc (node : UExpr) : Loc :=
  match node with
  | .memberE _ obj _ => uexprLoc obj
  | _ => uexprLoc node

/-- Model of `reportNode` of `use-client-directive.ts`: nothing is reported once the
directive is present; a member expression is keyed by its object's
location; a key already reported is suppressed. -/
def reportNode (hasUseClientDirective : Bool) (reported : List String)
    (node : UExpr) (api : String) : List UCDReport × List String :=
  if hasUseClientDirective then ([], reported)
  else
    let loc := reportLoc node
    let key := nodeKey loc.line loc.col api
    if reported.contains key then ([], reported)
    else ([⟨loc.line, loc.col, api, ucdFixText⟩], key :: reported)

/-- Model of `checkMemberExpression` of `use-client-directive.ts`: resolve the
object through the imports map (namespace and named cases, allowlist
first), report direct DOM-API objects, and recurse through nested member
expressions. -/
def checkMemberExpression (allowedModules : Allowlist)
    (imports : List (String × ImportInfo)) (hasUseClientDirective : Bool) :
    UExpr → List String → List UCDReport × List String
  | .memberE loc obj propIdent, reported =>
      (match obj with
       | .identE _ objectName =>
           let importInfo := alistGet imports objectName
           match importInfo, propIdent with
           | some info, some propertyName =>
               if info.isNamespaceImport then
                 if isAllowlistedImport allowedModules info.source "*" then
                   ([], reported)
                 else if isAllowlistedImport allowedModules info.source propertyName then
                   ([], reported)
                 else if DOM_APIS.contains propertyName &&
                     alistHas allowedModules info.source then
                   reportNode hasUseClientDirective reported
                     (UExpr.memberE loc obj propIdent) propertyName
                 else
                   ([], reported)
               else
                 if !isAllowlistedImport allowedModules info.source info.importedName then
                   if DOM_APIS.contains info.importedName then
                     reportNode hasUseClientDirective reported
                       (UExpr.memberE loc obj propIdent) info.importedName
                   else
                     ([], reported)
                 else
                   ([], reported)
           | _, _ =>
               if DOM_APIS.contains objectName then
                 reportNode hasUseClientDirective reported obj objectName
               else
                 ([], reported)
       | .memberE oloc oobj oprop =>
           checkMemberExpression allowedModules imports hasUseClientDirective
             (UExpr.memberE oloc oobj oprop) reported
       | _ => ([], reported))
  | _, reported => ([], reported)

/-! ## Directive detection (`Program` visitors) -/

/-- Top-level statements as the directive scanners see them. -/
inductive StmtNode : Type where
  | exprStmt (e : ExpressionStatementNode)
  | otherStmt
deriving Repr, DecidableEq

/-- Comment kinds (`// ...` and `/* ... */`). -/
inductive CommentKind : Type where
  | line
  | block
deriving Repr, DecidableEq

/-- A comment as delivered by `getAllComments`: its kind and its `value`,
the text between the comment markers. -/
structure CommentNode where
  kind : CommentKind
  value : String
deriving Repr, DecidableEq

/-- The statement side of the `use-client-directive` `Program` visitor: an
expression statement whose string-literal value trims to `use client`. -/
def ucdStatementIsDirective : StmtNode → Bool
  | .exprStmt e =>
      match e.expression with
      | .strLit _ v => jsTrim v == "use client"
      | _ => false
  | _ => false

/-- Model of `Program` of `use-client-directive.ts` (also the `isClientComponent`
scan of `no-server-only-in-client.ts`): a directive statement anywhere in
the body, else a comment whose trimmed value is exactly `use client`. -/
def hasUseClientDirectiveUCD (body : List StmtNode) (comments : List CommentNode) :
    Bool :=
  let fromStatements := body.any ucdStatementIsDirective
  if fromStatements then true
  else comments.any (fun c => jsTrim c.value == "use client")

/-! ## The `no-server-only-in-client` rule (`no-server-only-in-client.ts`) -/

/-- Table `DEFAULT_SERVER_ONLY_APIS`. -/
def DEFAULT_SERVER_ONLY_APIS : List (String × List String) :=
  [("next/headers", ["cookies", "headers"]),
   ("next/server", ["cookies", "headers"]),
   ("next/cache", ["revalidatePath", "revalidateTag"]),
   ("server-only", ["*"]),
   ("next/font/google", ["*"]),
   ("next/font/local", ["*"]),
   ("fs/promises",
     ["*", "readFile", "writeFile", "appendFile", "mkdir", "readdir", "stat"])]

/-- Table `DEFAULT_NODE_APIS`. -/
def DEFAULT_NODE_APIS : List (String × List String) :=
  [("fs", ["*"]), ("path", ["*"]), ("process", ["cwd", "env"]),
   ("querystring", ["*"]), ("crypto", ["*"]), ("os", ["*"])]

/-- Table `DEFAULT_SERVER_ONLY_MODULES`. -/
def DEFAULT_SERVER_ONLY_MODULES : List String :=
  ["server-only", "node:fs", "node:path", "node:process", "node:crypto",
   "node:os", "node:querystring"]

/-- Message ids of the rule. -/
inductive SMsgId : Type where
  | serverOnlyApiInClient
  | serverOnlyImportInClient
  | nodeApiInClient
  | dataFetchingPatternInClient
deriving Repr, DecidableEq

/-- A diagnostic of the rule.  `key3` is the third component of the dedup
key the emitting helper used (the api name, module source, or cache mode). -/
structure SReport where
  msg : SMsgId
  line : Nat
  col : Nat
  key3 : String
  source : String
deriving Repr, DecidableEq

/-- The dedup key of an emitted diagnostic. -/
def sReportKey (r : SReport) : String := nodeKey r.line r.col r.key3

/-- Model of `reportServerOnlyApiInClient`. -/
def reportServerOnlyApiInClient (isClientComponent : Bool)
    (reported : List String) (line col : Nat) (api source : String) :
    List SReport × List String :=
  if !isClientComponent then ([], reported)
  else
    let key := nodeKey line col api
    if reported.contains key then ([], reported)
    else ([⟨SMsgId.serverOnlyApiInClient, line, col, api, source⟩], key :: reported)

/-- Model of `reportServerOnlyImportInClient` (keyed by the module source). -/
def reportServerOnlyImportInClient (isClientComponent : Bool)
    (reported : List String) (line col : Nat) (source : String) :
    List SReport × List String :=
  if !isClientComponent then ([], reported)
  else
    let key := nodeKey line col source
    if reported.contains key then ([], reported)
    else
      ([⟨SMsgId.serverOnlyImportInClient, line, col, source, source⟩],
        key :: reported)

/-- Model of `reportNodeApiInClient`. -/
def reportNodeApiInClient (isClientComponent : Bool) (reported : List String)
    (line col : Nat) (api source : String) : List SReport × List String :=
  if !isClientComponent then ([], reported)
  else
    let key := nodeKey line col api
    if reported.contains key then ([], reported)
    else ([⟨SMsgId.nodeApiInClient, line, col, api, source⟩], key :: reported)

/-- Model of `reportDataFetchingPatternInClient` (keyed by the cache mode). -/
def reportDataFetchingPatternInClient (isClientComponent : Bool)
    (reported : List String) (line col : Nat) (cacheType : String) :
    List SReport × List String :=
  if !isClientComponent then ([], reported)
  else
    let key := nodeKey line col cacheType
    if reported.contains key then ([], reported)
    else
      ([⟨SMsgId.dataFetchingPatternInClient, line, col, cacheType, ""⟩],
        key :: reported)

/-! ## Object-expression and call-expression checks -/

/-- Object property keys (identifier or anything else). -/
inductive PropKey : Type where
  | identKey (name : String)
  | otherKey
deriving Repr, DecidableEq

/-- Object property values (string literal or anything else). -/
inductive PropValue : Type where
  | strValue (s : String)
  | otherValue
deriving Repr, DecidableEq

/-- Object-literal members. -/
inductive ObjProperty : Type where
  | property (key : PropKey) (value : PropValue)
  | otherProperty
deriving Repr, DecidableEq

/-- An `ObjectExpression` node. -/
structure ObjectExprNode where
  loc : Loc
  properties : List ObjProperty
deriving Repr, DecidableEq

/-- The property loop of `checkObjectExpression`: the first property whose
identifier key is `cache` and whose string value is `force-cache` or
`only-if-cached`. -/
def findCacheProperty : List ObjProperty → Option String
  | [] => none
  | ObjProperty.property (PropKey.identKey k) (PropValue.strValue v) :: rest =>
      if k == "cache" && (v == "force-cache" || v == "only-if-cached") then
        some v
      else
        findCacheProperty rest
  | _ :: rest => findCacheProperty rest

/-- Model of `checkObjectExpression`: in a client component, report the data-fetch
pattern for the first matching `cache` property. -/
def checkObjectExpression (isClientComponent : Bool) (reported : List String)
    (node : ObjectExprNode) : List SReport × List String :=
  if !isClientComponent then ([], reported)
  else
    match findCacheProperty node.properties with
    | some v =>
        reportDataFetchingPatternInClient isClientComponent reported
          node.loc.line node.loc.col v
    | none => ([], reported)

/-- Call arguments: an object literal or anything else. -/
inductive CallArg : Type where
  | objArg (o : ObjectExprNode)
  | otherArg
deriving Repr, DecidableEq

/-- A `CallExpression` node: optional identifier callee with its location,
and the argument list. -/
structure CallExprNode where
  calleeIdent : Option String
  calleeLoc : Loc
  args : List CallArg
deriving Repr, DecidableEq

/-- The `for..of Object.entries(apis)` search shared by the callee checks:
the first configured module equal to the import's source whose list
contains the imported name or the wildcard. -/
def findApiEntry (apis : List (String × List String)) (info : ImportInfo) :
    Option String :=
  (apis.find?
      (fun e =>
        info.source == e.1 &&
          (e.2.contains info.importedName || e.2.contains "*"))).map Prod.fst

/-- Model of `checkCallExpression`: a callee imported from a configured server-only
or Node module is reported; otherwise a call to `fetch` whose second
argument is an object literal is checked for the cache pattern. -/
def checkCallExpression (serverOnlyAPIs nodeAPIs : List (String × List String))
    (imports : List (String × ImportInfo)) (isClientComponent : Bool)
    (reported : List String) (node : CallExprNode) :
    List SReport × List String :=
  let fetchCheck : List String → List SReport × List String :=
    fun reported =>
      match node.calleeIdent with
      | some name =>
          if name == "fetch" && node.args.length ≥ 2 then
            match node.args.get? 1 with
            | some (CallArg.objArg o) => checkObjectExpression isClientComponent reported o
            | _ => ([], reported)
          else
            ([], reported)
      | none => ([], reported)
  match node.calleeIdent with
  | some calleeName =>
      (match alistGet imports calleeName with
       | some info =>
           (match findApiEntry serverOnlyAPIs info with
            | some source =>
                reportServerOnlyApiInClient isClientComponent reported
                  node.calleeLoc.line node.calleeLoc.col info.importedName source
            | none =>
                match findApiEntry nodeAPIs info with
                | some source =>
                    reportNodeApiInClient isClientComponent reported
                      node.calleeLoc.line node.calleeLoc.col info.importedName source
                | none => fetchCheck reported)
       | none => fetchCheck reported)
  | none => fetchCheck reported

/-- The rule's listener registrations relevant to object literals: every
`CallExpression` goes to `checkCallExpression` and every
`ObjectExpression` — wherever it occurs — goes to `checkObjectExpression`. -/
inductive SVisitEvent : Type where
  | callExpressionEv (node : CallExprNode)
  | objectExpressionEv (node : ObjectExprNode)
deriving Repr, DecidableEq

/-- Dispatch of the rule's `RuleListener` for the events above. -/
def noServerOnlyVisit (serverOnlyAPIs nodeAPIs : List (String × List String))
    (imports : List (String × ImportInfo)) (isClientComponent : Bool)
    (reported : List String) : SVisitEvent → List SReport × List String
  | .callExpressionEv n =>
      checkCallExpression serverOnlyAPIs nodeAPIs imports isClientComponent
        reported n
  | .objectExpressionEv n => checkObjectExpression isClientComponent reported n

/-! ## Report-deduplication drivers -/

/-- One invocation of a `no-server-only-in-client` report helper. -/
inductive SAttempt : Type where
  | apiAttempt (line col : Nat) (api source : String)
  | importAttempt (line col : Nat) (source : String)
  | nodeApiAttempt (line col : Nat) (api source : String)
  | dataFetchAttempt (line col : Nat) (cacheType : String)
deriving Repr, DecidableEq

/-- Run one report attempt through the corresponding helper. -/
def runSAttempt (isClientComponent : Bool) (reported : List String) :
    SAttempt → List SReport × List String
  | .apiAttempt line col api source =>
      reportServerOnlyApiInClient isClientComponent reported line col api source
  | .importAttempt line col source =>
      reportServerOnlyImportInClient isClientComponent reported line col source
  | .nodeApiAttempt line col api source =>
      reportNodeApiInClient isClientComponent reported line col api source
  | .dataFetchAttempt line col cacheType =>
      reportDataFetchingPatternInClient isClientComponent reported line col cacheType

/-- Thread a sequence of report attempts through a report helper, carrying
the `reportedNodes` set from one invocation to the next, exactly as the
rule's traversal does. -/
def runDedup {α β : Type} (step : List String → α → List β × List String) :
    List α → List String → List β × List String
  | [], reported => ([], reported)
  | a :: rest, reported =>
      let (rs, reported1) := step reported a
      let (rs2, reported2) := runDedup step rest reported1
      (rs ++ rs2, reported2)

/-- Run a whole sequence of `no-server-only-in-client` report attempts. -/
def runSReports (isClientComponent : Bool) (attempts : List SAttempt)
    (reported : List String) : List SReport × List String :=
  runDedup (runSAttempt isClientComponent) attempts reported

/-- One `reportNode` invocation on a (node, api) pair. -/
def ucdStep (hasUseClientDirective : Bool) (reported : List String)
    (pr : UExpr × String) : List UCDReport × List String :=
  reportNode hasUseClientDirective reported pr.1 pr.2

/-- Run a sequence of `reportNode` invocations of `use-client-directive`. -/
def runUCDReports (hasUseClientDirective : Bool)
    (attempts : List (UExpr × String)) (reported : List String) :
    List UCDReport × List String :=
  runDedup (ucdStep hasUseClientDirective) attempts reported

/-! ## Concrete scenarios used by the theorems below -/

/-- An environment with an empty world, empty allowlist and the default
options (`traceDepth 1`, tracing on). -/
def emptyEnv : Env :=
  ⟨[], [], defaultModuleCategories, 1, true, "/app/components/C.tsx"⟩

/-- An environment with the tracing depth set to zero. -/
def depthZeroEnv : Env :=
  ⟨[], [], defaultModuleCategories, 0, true, "/app/components/C.tsx"⟩

/-- An environment whose allowlist maps `react` to `true` and `swr` to the
export array `["useSWR"]`. -/
def allowReactEnv : Env :=
  { w := [],
    allowlist :=
      [("react", AllowVal.boolVal true), ("swr", AllowVal.listVal ["useSWR"]),
       ("next/api", AllowVal.listVal ["helper"])],
    moduleCategories := defaultModuleCategories,
    traceDepth := 1,
    traceDependencies := true,
    fileName := "/app/components/C.tsx" }

/-- The source text of the spec's first example scenario. -/
def scenarioSource : String :=
  "export function C()\x7b document.title=\x27x\x27; return null; \x7d"

/-- The `document.title` member expression of that scenario (object
`document` at line 1, column 21). -/
def scenarioMemberUExpr : UExpr :=
  UExpr.memberE ⟨1, 21⟩ (UExpr.identE ⟨1, 21⟩ "document") (some "title")

/-- The same member expression as the advanced rule sees it. -/
def scenarioMemberANode : ANode :=
  ANode.memberExpr (some "document") (some "title")

/-- Rule state after the advanced rule has classified the scenario's
member expression. -/
def scenarioAdvState : AdvState :=
  (checkNodeForClientAPIs clientOnlyHooks serverSafeHooks scenarioMemberANode {}).2

/-- A state whose only finding is an indirect (imported-module-level)
client dependency on a file that declares exports. -/
def indirectOnlyState : AdvState :=
  { clientDependencies := ["Import from client module: ./widget.Widget"],
    hasExports := true }

/-- An object literal `\x7b cache: \x22force-cache\x22 \x7d` at line 3,
column 14, standing alone (not an argument of any call). -/
def standaloneCacheObject : ObjectExprNode :=
  ⟨⟨3, 14⟩,
    [ObjProperty.property (PropKey.identKey "cache")
      (PropValue.strValue "force-cache")]⟩

/-- Statement `"use client";` at top level (double quotes). -/
def stmtDoubleQuoted : StmtNode :=
  StmtNode.exprStmt ⟨some "use client", ExprLit.strLit "\x22use client\x22" "use client"⟩

/-- Statement `'use client';` at top level (single quotes). -/
def stmtSingleQuoted : StmtNode :=
  StmtNode.exprStmt ⟨some "use client", ExprLit.strLit "\x27use client\x27" "use client"⟩

/-- Comment `// use client` (a line comment's `value` keeps the leading space). -/
def lineUseClientComment : CommentNode := ⟨CommentKind.line, " use client"⟩

/-- Comment `/* use client */` (a block comment's `value` keeps the spaces). -/
def blockUseClientComment : CommentNode := ⟨CommentKind.block, " use client "⟩

/-- A static import of `lodash` with one named value specifier. -/
def lodashImportNode : ImportDeclNode :=
  ⟨"lodash", ImportKindJs.value, [ImportSpecNode.importSpecifier (some "debounce") false]⟩

/-- A dynamic import of `lodash`. -/
def lodashDynNode : ImportExprNode := ⟨some "lodash"⟩

/-! ## Helper lemmas -/

/-- State components `hasFileChanged` never touches. -/
lemma hasFileChanged_preserves (w : World) (s : AdvState) (p : String) :
    (hasFileChanged w s p).2.reads = s.reads ∧
    (hasFileChanged w s p).2.filesCheckedInThisRun = s.filesCheckedInThisRun := by
  unfold hasFileChanged
  split <;> try simp
  split <;> try simp
  split <;> simp

/-- State components `getClientDependency` never touches: it reads no file
and does not alter the visited set. -/
lemma getClientDependency_preserves (w : World) (s : AdvState) (p : String) :
    (getClientDependency w s p).2.reads = s.reads ∧
    (getClientDependency w s p).2.filesCheckedInThisRun = s.filesCheckedInThisRun := by
  unfold getClientDependency
  rcases hfc : hasFileChanged w s p with ⟨changed, s1⟩
  have hp := hasFileChanged_preserves w s p
  rw [hfc] at hp
  simp at hp
  split <;> try simp
  split <;> try simp
  split <;> simp [hp.1, hp.2]

/-- With the trace depth at zero, the specifier loop does nothing. -/
lemma checkImportSpecLoop_depth_zero (env : Env) (m : String)
    (hdz : env.traceDepth = 0) :
    ∀ (specs : List ImportSpecNode) (acc : Bool) (s : AdvState),
      checkImportSpecLoop env m specs acc s = (acc, s) := by
  intro specs
  induction specs with
  | nil => intro acc s; rfl
  | cons spec rest ih =>
      intro acc s
      cases spec with
      | importSpecifier imported tOnly =>
          simp [checkImportSpecLoop, hdz, ih]
      | importDefaultSpecifier => simp [checkImportSpecLoop, ih]
      | importNamespaceSpecifier => simp [checkImportSpecLoop, ih]

/-- Every `no-server-only-in-client` report helper either reports nothing
and leaves `reportedNodes` alone, or emits one fresh-keyed diagnostic and
records its key. -/
lemma runSAttempt_cases (isClient : Bool) (reported : List String) (a : SAttempt) :
    runSAttempt isClient reported a = ([], reported) ∨
    ∃ r : SReport, sReportKey r ∉ reported ∧
      runSAttempt isClient reported a = ([r], sReportKey r :: reported) := by
  cases a with
  | apiAttempt line col api source =>
      simp only [runSAttempt, reportServerOnlyApiInClient]
      split_ifs with h1 h2
      · exact Or.inl rfl
      · exact Or.inl rfl
      · exact Or.inr ⟨⟨SMsgId.serverOnlyApiInClient, line, col, api, source⟩,
          by simpa using h2, rfl⟩
  | importAttempt line col source =>
      simp only [runSAttempt, reportServerOnlyImportInClient]
      split_ifs with h1 h2
      · exact Or.inl rfl
      · exact Or.inl rfl
      · exact Or.inr ⟨⟨SMsgId.serverOnlyImportInClient, line, col, source, source⟩,
          by simpa using h2, rfl⟩
  | nodeApiAttempt line col api source =>
      simp only [runSAttempt, reportNodeApiInClient]
      split_ifs with h1 h2
      · exact Or.inl rfl
      · exact Or.inl rfl
      · exact Or.inr ⟨⟨SMsgId.nodeApiInClient, line, col, api, source⟩,
          by simpa using h2, rfl⟩
  | dataFetchAttempt line col cacheType =>
      simp only [runSAttempt, reportDataFetchingPatternInClient]
      split_ifs with h1 h2
      · exact Or.inl rfl
      · exact Or.inl rfl
      · exact Or.inr ⟨⟨SMsgId.dataFetchingPatternInClient, line, col, cacheType, ""⟩,
          by simpa using h2, rfl⟩

/-- Dichotomy of `reportNode` of `use-client-directive.ts`. -/
lemma reportNode_cases (hasDir : Bool) (reported : List String) (node : UExpr)
    (api : String) :
    reportNode hasDir reported node api = ([], reported) ∨
    ∃ r : UCDReport, ucdReportKey r ∉ reported ∧
      reportNode hasDir reported node api = ([r], ucdReportKey r :: reported) := by
  cases hasDir with
  | true => exact Or.inl (by simp [reportNode])
  | false =>
      by_cases h2 : reported.contains
          (nodeKey (reportLoc node).line (reportLoc node).col api) = true
      · have h2m : nodeKey (reportLoc node).line (reportLoc node).col api ∈ reported := by
          simpa using h2
        exact Or.inl (by simp [reportNode, h2m])
      · have hn : nodeKey (reportLoc node).line (reportLoc node).col api ∉ reported :=
          fun hm => h2 (by simpa using hm)
        exact Or.inr ⟨⟨(reportLoc node).line, (reportLoc node).col, api, ucdFixText⟩,
          hn, by simp [reportNode, ucdReportKey, hn]⟩

/-- Running any sequence of report attempts through a helper satisfying the
emit-or-skip dichotomy yields diagnostics with pairwise-distinct keys, none
of which was already recorded. -/
lemma runDedup_spec {α β : Type} (step : List String → α → List β × List String)
    (keyOf : β → String)
    (hstep : ∀ reported a, step reported a = ([], reported) ∨
      ∃ r, keyOf r ∉ reported ∧ step reported a = ([r], keyOf r :: reported)) :
    ∀ (attempts : List α) (reported : List String),
      ((runDedup step attempts reported).1.map keyOf).Nodup ∧
      (∀ k ∈ (runDedup step attempts reported).1.map keyOf, k ∉ reported) ∧
      (∀ k, k ∈ (runDedup step attempts reported).2 ↔
        k ∈ (runDedup step attempts reported).1.map keyOf ∨ k ∈ reported) := by
  intro attempts
  induction attempts with
  | nil => intro reported; simp [runDedup]
  | cons a rest ih =>
      intro reported
      rcases hstep reported a with h | ⟨r, hr, h⟩
      · rcases hrun : runDedup step rest reported with ⟨rs2, rep2⟩
        have hhh := ih reported
        rw [hrun] at hhh
        simp only [runDedup, h, hrun]
        simpa using hhh
      · rcases hrun : runDedup step rest (keyOf r :: reported) with ⟨rs2, rep2⟩
        obtain ⟨ih1, ih2, ih3⟩ := ih (keyOf r :: reported)
        rw [hrun] at ih1 ih2 ih3
        simp only [runDedup, h, hrun]
        refine ⟨?_, ?_, ?_⟩
        · simp only [List.singleton_append, List.map_cons, List.nodup_cons]
          refine ⟨fun hmem => (ih2 _ hmem) (List.mem_cons_self _ _), ih1⟩
        · intro k hk
          simp only [List.singleton_append, List.map_cons, List.mem_cons] at hk
          rcases hk with rfl | hk
          · exact hr
          · exact fun hkrep => (ih2 k hk) (List.mem_cons_of_mem _ hkrep)
        · intro k
          have hk3 := ih3 k
          simp only [List.singleton_append, List.map_cons, List.mem_cons] at hk3 ⊢
          tauto

/-! ## Claim theorems -/

/-- Claim C1.  During transitive tracing, a file read or parse failure is
claimed to be treated as "has client indicators = true" and left uncached.
The code half-agrees: the failure is indeed not cached (neither in the AST
cache nor in the dependency cache), but `analyzeModuleForClientDependencies`
returns `false` — not the conservative `true` — for the erroring file, as
this evaluation at a non-existent path shows. -/
theorem trace_error_yields_false_and_is_not_cached :
    getFileAST ([] : World) {} "/app/missing.ts" = ({ error := some true }, {}) ∧
    analyzeModuleForClientDependencies emptyEnv "/app/missing.ts" {} =
      (false, { filesCheckedInThisRun := ["/app/missing.ts"] }) := by
  constructor
  · decide
  · decide

/-- Claim C2 (counterexample).  Classifying a call of the client-only hook
`useState` yields a CLIENT_DEPENDENCY finding even though the allowlist
maps `react` — the module `useState` is imported from — to `true`:
`checkNodeForClientAPIs` never consults the allowlist, so the claim that an
allowlisted (module, export) pair always classifies as NONE is false. -/
theorem hook_classifier_ignores_allowlist :
    isExportAllowlisted allowReactEnv.allowlist "react" "useState" = true ∧
    checkNodeForClientAPIs clientOnlyHooks serverSafeHooks
        (ANode.callExpr (some "useState")) {} =
      (true, { clientDependencies := ["React hook: useState"],
               hasDirectClientAPIs := true }) := by
  constructor
  · decide
  · decide

/-- Claim C2 (amended).  Allowlisting suppresses findings at the import
level only: a module mapped to `true` produces no finding for static or
dynamic imports, and an array-allowlisted export produces no tracing
finding provided the module is not a known client-only package.  (In-file
hook classification remains allowlist-independent.) -/
theorem allowlist_import_level_suppression :
    (∀ (env : Env) (node : ImportDeclNode) (s : AdvState),
        alistGet env.allowlist node.source = some (AllowVal.boolVal true) →
        checkImportForClientDependencies env node s = (false, s)) ∧
    (∀ (env : Env) (m : String) (s : AdvState),
        alistGet env.allowlist m = some (AllowVal.boolVal true) →
        checkDynamicImport env ⟨some m⟩ s = (false, s)) ∧
    (∀ (env : Env) (m e : String) (s : AdvState),
        isKnownClientOnlyPackage env.moduleCategories m = false →
        isExportAllowlisted env.allowlist m e = true →
        checkImportForClientDependencies env
          ⟨m, ImportKindJs.value, [ImportSpecNode.importSpecifier (some e) false]⟩ s =
          (false, s)) := by
  refine ⟨?_, ?_, ?_⟩
  · intro env node s h
    simp [checkImportForClientDependencies, isModuleAllowlisted, h]
  · intro env m s h
    simp [checkDynamicImport, isModuleAllowlisted, h]
  · intro env m e s hpkg hallow
    unfold checkImportForClientDependencies
    by_cases hA : isModuleAllowlisted env.allowlist env.moduleCategories m = true
    · simp [hA]
    · simp only [Bool.not_eq_true] at hA
      simp [hA, hpkg, checkImportSpecLoop, hallow]

/-- Witness for the amended C2 theorem at concrete inputs. -/
theorem allowlist_import_level_suppression_witness :
    checkImportForClientDependencies allowReactEnv
        ⟨"react", ImportKindJs.value,
          [ImportSpecNode.importSpecifier (some "useState") false]⟩ {} =
      (false, {}) ∧
    checkDynamicImport allowReactEnv ⟨some "react"⟩ {} = (false, {}) ∧
    checkImportForClientDependencies allowReactEnv
        ⟨"next/api", ImportKindJs.value,
          [ImportSpecNode.importSpecifier (some "helper") false]⟩ {} =
      (false, {}) :=
  ⟨allowlist_import_level_suppression.1 allowReactEnv _ {} (by decide),
    allowlist_import_level_suppression.2.1 allowReactEnv "react" {} (by decide),
    allowlist_import_level_suppression.2.2 allowReactEnv "next/api" "helper" {}
      (by decide) (by decide)⟩

/-- Claim C3 (counterexample).  A file whose only accumulated finding is an
indirect (imported-module-level) client dependency, with exports and zero
direct client APIs, is claimed to receive the shared-component hint.  In
the code `isLikelySharedComponent` demands an empty findings list, so
`Program:exit` takes the missing-directive branch instead and the
shared-component hint is absent. -/
theorem indirect_only_findings_not_flagged_shared :
    isLikelySharedComponent indirectOnlyState = false ∧
    (programExit emptyEnv [] indirectOnlyState).1 =
      [AdvReport.missingUseClient advancedFixText,
       AdvReport.detectedClientDep "Import from client module: ./widget.Widget"] ∧
    AdvReport.sharedComponent ∉ (programExit emptyEnv [] indirectOnlyState).1 := by
  refine ⟨by decide, by decide, by decide⟩

/-- Claim C3 (amended).  The shared-component hint is emitted exactly for a
file that declares exports, has no direct client APIs and has an empty
accumulated findings list; indirect-only findings take the
missing-directive branch instead. -/
theorem shared_component_flag_requires_empty_findings (env : Env)
    (comments : List String) (s : AdvState)
    (h1 : s.hasExports = true) (h2 : s.hasDirectClientAPIs = false)
    (h3 : s.clientDependencies = []) :
    (programExit env comments s).1 = [AdvReport.sharedComponent] := by
  simp [programExit, isLikelySharedComponent, h1, h2, h3]

/-- Witness for the amended C3 theorem. -/
theorem shared_component_flag_requires_empty_findings_witness :
    (programExit emptyEnv [] { hasExports := true }).1 =
      [AdvReport.sharedComponent] :=
  shared_component_flag_requires_empty_findings emptyEnv [] { hasExports := true }
    rfl rfl rfl

/-- Claim C4 (counterexample).  On the claim's own scenario — a DOM API use
of `document` with an empty allowlist and no directive — the
`use-client-directive` rule reports with a fix that inserts
`'use client';` followed by a single newline, so the fixed output does not
begin with the canonical directive plus a blank line. -/
theorem ucd_fix_inserts_no_blank_line :
    checkMemberExpression [] [] false scenarioMemberUExpr [] =
      ([⟨1, 21, "document", ucdFixText⟩], ["1:21:document"]) ∧
    insertAt scenarioSource 0 ucdFixText = "\x27use client\x27;\n" ++ scenarioSource ∧
    jsStartsWith (insertAt scenarioSource 0 ucdFixText) advancedFixText = false := by
  refine ⟨by decide, by decide, by decide⟩

/-- Claim C4 (amended).  The `enforce-use-client` rule's ADD_DIRECTIVE fix
does insert `'use client';` plus a blank line at the start of the program,
so its fixed output for the scenario begins with `'use client';` and two
newlines followed by the original text; the `use-client-directive` rule's
fix inserts the directive plus a single newline only. -/
theorem advanced_fix_inserts_directive_and_blank_line :
    (programExit emptyEnv [] scenarioAdvState).1 =
      [AdvReport.missingUseClient advancedFixText,
       AdvReport.detectedClientDep "Browser API: document.title"] ∧
    insertAt scenarioSource 0 advancedFixText = advancedFixText ++ scenarioSource ∧
    jsStartsWith (insertAt scenarioSource 0 advancedFixText)
      "\x27use client\x27;\n\n" = true ∧
    ucdFixText = "\x27use client\x27;\n" := by
  refine ⟨by decide, by decide, by decide, by decide⟩

/-- Claim C5 (counterexample).  An object literal with `cache:
"force-cache"` that is not an argument of any call still produces the
DATA_FETCH_PATTERN diagnostic in a client component, because the rule
registers `checkObjectExpression` for every `ObjectExpression`; the claim
that the verdict arises exactly for `fetch`'s second argument is false. -/
theorem standalone_cache_object_reported :
    noServerOnlyVisit DEFAULT_SERVER_ONLY_APIS DEFAULT_NODE_APIS [] true []
        (SVisitEvent.objectExpressionEv standaloneCacheObject) =
      ([⟨SMsgId.dataFetchingPatternInClient, 3, 14, "force-cache", ""⟩],
        ["3:14:force-cache"]) := by
  decide

/-- Claim C5 (amended).  Outside a client component no object literal is
reported; inside one, any visited object literal whose first matching
property is `cache: "force-cache"`/`"only-if-cached"` yields the
DATA_FETCH_PATTERN diagnostic, regardless of its syntactic position. -/
theorem cache_object_reported_in_any_position :
    (∀ (reported : List String) (node : ObjectExprNode),
        checkObjectExpression false reported node = ([], reported)) ∧
    (∀ (reported : List String) (node : ObjectExprNode) (v : String),
        findCacheProperty node.properties = some v →
        reported.contains (nodeKey node.loc.line node.loc.col v) = false →
        noServerOnlyVisit DEFAULT_SERVER_ONLY_APIS DEFAULT_NODE_APIS [] true reported
            (SVisitEvent.objectExpressionEv node) =
          ([⟨SMsgId.dataFetchingPatternInClient, node.loc.line, node.loc.col, v, ""⟩],
            nodeKey node.loc.line node.loc.col v :: reported)) := by
  constructor
  · intro reported node
    simp [checkObjectExpression]
  · intro reported node v hfind hkey
    simp at hkey
    simp [noServerOnlyVisit, checkObjectExpression, hfind,
      reportDataFetchingPatternInClient, hkey]

/-- Witness for the amended C5 theorem. -/
theorem cache_object_reported_in_any_position_witness :
    noServerOnlyVisit DEFAULT_SERVER_ONLY_APIS DEFAULT_NODE_APIS [] true []
        (SVisitEvent.objectExpressionEv
          ⟨⟨7, 2⟩, [ObjProperty.property (PropKey.identKey "cache")
            (PropValue.strValue "only-if-cached")]⟩) =
      ([⟨SMsgId.dataFetchingPatternInClient, 7, 2, "only-if-cached", ""⟩],
        ["7:2:only-if-cached"]) ∧
    checkObjectExpression false [] standaloneCacheObject = ([], []) :=
  ⟨cache_object_reported_in_any_position.2 []
      ⟨⟨7, 2⟩, [ObjProperty.property (PropKey.identKey "cache")
        (PropValue.strValue "only-if-cached")]⟩ "only-if-cached"
      (by decide) (by decide),
    cache_object_reported_in_any_position.1 [] standaloneCacheObject⟩

/-- Claim C6.  With the trace depth option at zero, neither a static nor
a dynamic import of a non-client-only-package module produces
any finding or any change of state — in particular no file is ever read
(`reads` is part of the unchanged state). -/
theorem depth_zero_traces_nothing (env : Env) (node : ImportDeclNode)
    (dyn : ImportExprNode) (s : AdvState)
    (hdz : env.traceDepth = 0)
    (hpkg : isKnownClientOnlyPackage env.moduleCategories node.source = false)
    (hdynpkg : ∀ m, dyn.source = some m →
      isKnownClientOnlyPackage env.moduleCategories m = false) :
    checkImportForClientDependencies env node s = (false, s) ∧
    checkDynamicImport env dyn s = (false, s) := by
  constructor
  · unfold checkImportForClientDependencies
    by_cases hA : isModuleAllowlisted env.allowlist env.moduleCategories node.source = true
    · simp [hA]
    · simp only [Bool.not_eq_true] at hA
      simp [hA, hpkg, checkImportSpecLoop_depth_zero env node.source hdz]
  · unfold checkDynamicImport
    rcases hsrc : dyn.source with _ | m
    · rfl
    · by_cases hA : isModuleAllowlisted env.allowlist env.moduleCategories m = true
      · simp [hA]
      · simp only [Bool.not_eq_true] at hA
        simp [hA, hdynpkg m hsrc, hdz]

/-- Witness for the C6 theorem. -/
theorem depth_zero_traces_nothing_witness :
    checkImportForClientDependencies depthZeroEnv lodashImportNode {} = (false, {}) ∧
    checkDynamicImport depthZeroEnv lodashDynNode {} = (false, {}) :=
  depth_zero_traces_nothing depthZeroEnv lodashImportNode lodashDynNode {}
    (by decide) (by decide)
    (fun m hm => by
      simp [lodashDynNode] at hm
      rw [← hm]
      decide)

/-- Claim C7.  A file path already in the run's visited set is never
re-analyzed: `analyzeModuleForClientDependencies` (a total function, so it
terminates on every module graph, cyclic ones included) answers from the
dependency cache with default `false`, reads no file and leaves the
visited set unchanged. -/
theorem visited_path_is_answered_from_cache (env : Env) (p : String) (s : AdvState)
    (h : s.filesCheckedInThisRun.contains p = true) :
    analyzeModuleForClientDependencies env p s =
      ((getClientDependency env.w s p).1.getD false,
        (getClientDependency env.w s p).2) ∧
    ((getClientDependency env.w s p).2).reads = s.reads ∧
    ((getClientDependency env.w s p).2).filesCheckedInThisRun =
      s.filesCheckedInThisRun := by
  refine ⟨?_, (getClientDependency_preserves env.w s p).1,
    (getClientDependency_preserves env.w s p).2⟩
  rcases hgd : getClientDependency env.w s p with ⟨r, s1⟩
  simp at h
  simp [analyzeModuleForClientDependencies, h, hgd]

/-- Witness for the C7 theorem: re-entering a visited path during a cyclic
trace returns the default `false` without reading anything. -/
theorem visited_path_is_answered_from_cache_witness :
    (["/app/b.ts"] : List String).contains "/app/b.ts" = true ∧
    analyzeModuleForClientDependencies emptyEnv "/app/b.ts"
        { filesCheckedInThisRun := ["/app/b.ts"] } =
      (false, { filesCheckedInThisRun := ["/app/b.ts"] }) := by
  constructor
  · decide
  · have h := (visited_path_is_answered_from_cache emptyEnv "/app/b.ts"
      { filesCheckedInThisRun := ["/app/b.ts"] } (by decide)).1
    rw [h]
    decide

/-- Claim C8.  Directive detection is quote- and comment-form-insensitive:
the statement scan accepts the directive's parsed value whatever the raw
quote style was, and the comment scan accepts line and block comments whose
trimmed text is exactly `use client`; the advanced rule's statement check
likewise accepts both quote styles. -/
theorem directive_detection_quote_and_comment_insensitive :
    hasUseClientDirectiveUCD [stmtDoubleQuoted] [] = true ∧
    hasUseClientDirectiveUCD [stmtSingleQuoted] [] = true ∧
    hasUseClientDirectiveUCD [] [lineUseClientComment] = true ∧
    hasUseClientDirectiveUCD [] [blockUseClientComment] = true ∧
    (∀ raw : String,
      hasUseClientDirectiveUCD
        [StmtNode.exprStmt ⟨none, ExprLit.strLit raw "use client"⟩] [] = true) ∧
    advancedDirectiveCheck ⟨none, ExprLit.strLit "\x22use client\x22" "use client"⟩ = true ∧
    advancedDirectiveCheck ⟨none, ExprLit.strLit "\x27use client\x27" "use client"⟩ = true := by
  refine ⟨by decide, by decide, by decide, by decide, ?_, by decide, by decide⟩
  intro raw
  simp [hasUseClientDirectiveUCD, ucdStatementIsDirective]
  decide

/-- Claim C9.  A comment containing the token `check-use-client-disable`
suppresses both the missing-directive diagnostic and every per-dependency
diagnostic of the `enforce-use-client` rule, whatever was detected. -/
theorem disable_comment_suppresses_enforce_reports (env : Env)
    (comments : List String) (s : AdvState)
    (h : comments.any (fun c => strIncludes (jsTrim c) "check-use-client-disable") = true) :
    (∀ fix, AdvReport.missingUseClient fix ∉ (programExit env comments s).1) ∧
    (∀ dep, AdvReport.detectedClientDep dep ∉ (programExit env comments s).1) := by
  unfold programExit
  simp [h]
  constructor
  · intro fix
    split <;> simp
  · intro dep
    split <;> simp

/-- Witness for the C9 theorem: detected client dependencies and a missing
directive, yet no reports once the disable comment is present. -/
theorem disable_comment_suppresses_enforce_reports_witness :
    AdvReport.missingUseClient advancedFixText ∉
      (programExit emptyEnv [" check-use-client-disable react hooks below"]
        { clientDependencies := ["React hook: useState"],
          hasDirectClientAPIs := true }).1 ∧
    AdvReport.detectedClientDep "React hook: useState" ∉
      (programExit emptyEnv [" check-use-client-disable react hooks below"]
        { clientDependencies := ["React hook: useState"],
          hasDirectClientAPIs := true }).1 :=
  ⟨(disable_comment_suppresses_enforce_reports emptyEnv _ _ (by decide)).1 _,
    (disable_comment_suppresses_enforce_reports emptyEnv _ _ (by decide)).2 _⟩

/-- Claim C10.  Within one run, any sequence of report invocations of the
`no-server-only-in-client` helpers, and likewise of `reportNode` of
`use-client-directive`, emits diagnostics whose (line, column, name) dedup
keys are pairwise distinct: a repeated key is suppressed. -/
theorem rule_reports_unique_per_location_key :
    ∀ (isClientComponent : Bool) (attempts : List SAttempt)
      (hasUseClientDirective : Bool) (uattempts : List (UExpr × String)),
      ((runSReports isClientComponent attempts []).1.map sReportKey).Nodup ∧
      ((runUCDReports hasUseClientDirective uattempts []).1.map ucdReportKey).Nodup := by
  intro isClient attempts hasDir uatt
  constructor
  · have hh := (runDedup_spec (runSAttempt isClient) sReportKey
      (runSAttempt_cases isClient) attempts []).1
    simpa [runSReports] using hh
  · have hcase : ∀ (reported : List String) (pr : UExpr × String),
        ucdStep hasDir reported pr = ([], reported) ∨
        ∃ r : UCDReport, ucdReportKey r ∉ reported ∧
          ucdStep hasDir reported pr = ([r], ucdReportKey r :: reported) :=
      fun reported pr => reportNode_cases hasDir reported pr.1 pr.2
    have hh := (runDedup_spec (ucdStep hasDir) ucdReportKey hcase uatt []).1
    simpa [runUCDReports] using hh

end UseClientPlugin
